import Mathlib

/-!
Shallow embedding of the libdrop sync layer, transfer manager and receiver
session (drop-storage/src/sync.rs, drop-transfer/src/manager.rs,
drop-transfer/src/ws/server/mod.rs), together with theorems settling the
specification claims about them.

The database is modelled as lists of rows, one list per table; each SQL
statement of sync.rs is translated join-for-join and predicate-for-predicate
into a pure function over that state.
-/

deriving instance DecidableEq for Except

namespace Libdrop

/-- `TransferState` from sync.rs: `{ New = 0, Active = 1, Canceled = 2 }`. -/
inductive TransferState
  | New
  | Active
  | Canceled
  deriving DecidableEq, Repr

/-- `FileState` from sync.rs: `{ Alive = 0, Rejected = 1 }`. -/
inductive FileState
  | Alive
  | Rejected
  deriving DecidableEq, Repr

/-- A row of the `transfers` table (the columns the sync queries use:
`id` and `is_outgoing`). -/
structure TransfersRow where
  id : String
  is_outgoing : Bool
  deriving DecidableEq, Repr

/-- A row of `incoming_paths` / `outgoing_paths` (columns used by the sync
queries: `id`, `transfer_id`, `path_hash`). -/
structure PathsRow where
  id : Nat
  transfer_id : String
  path_hash : String
  deriving DecidableEq, Repr

/-- A row of the `sync_transfer` table. -/
structure SyncTransferRow where
  sync_id : Nat
  transfer_id : String
  local_state : TransferState
  remote_state : TransferState
  deriving DecidableEq, Repr

/-- A row of `sync_incoming_files` / `sync_outgoing_files`. -/
structure SyncFileRow where
  sync_id : Nat
  path_id : Nat
  local_state : FileState
  remote_state : FileState
  deriving DecidableEq, Repr

/-- A row of `sync_incoming_files_inflight`. -/
structure InFlightRow where
  sync_id : Nat
  path_id : Nat
  base_dir : String
  deriving DecidableEq, Repr

/-- The database state: one list per table touched by sync.rs. -/
structure Db where
  transfers : List TransfersRow
  incoming_paths : List PathsRow
  outgoing_paths : List PathsRow
  sync_transfer : List SyncTransferRow
  sync_incoming_files : List SyncFileRow
  sync_outgoing_files : List SyncFileRow
  sync_incoming_files_inflight : List InFlightRow
  deriving DecidableEq, Repr

/-- Result type of `transfer_state` (sync.rs `Transfer`). -/
structure SyncTransfer where
  remote_state : TransferState
  local_state : TransferState
  is_outgoing : Bool
  deriving DecidableEq, Repr

/-- sync.rs `transfer_state`: `SELECT st.local_state, st.remote_state,
t.is_outgoing FROM sync_transfer st INNER JOIN transfers t ON t.id =
st.transfer_id WHERE st.transfer_id = ?1`. -/
def transfer_state (db : Db) (tid : String) : Option SyncTransfer :=
  match db.sync_transfer.find? (fun st => st.transfer_id == tid) with
  | none => none
  | some st =>
    match db.transfers.find? (fun t => t.id == st.transfer_id) with
    | none => none
    | some t =>
      some { remote_state := st.remote_state
             local_state := st.local_state
             is_outgoing := t.is_outgoing }

/-- sync.rs `transfer_set_remote_state`: `UPDATE sync_transfer SET
remote_state = ?2 WHERE transfer_id = ?1`; returns `Some ()` iff the update
touched at least one row. No transition guard appears in the SQL. -/
def transfer_set_remote_state (db : Db) (tid : String) (s : TransferState) :
    Option Unit × Db :=
  let count := (db.sync_transfer.filter (fun st => st.transfer_id == tid)).length
  let rows := db.sync_transfer.map fun st =>
    if st.transfer_id == tid then { st with remote_state := s } else st
  (if count > 0 then some () else none, { db with sync_transfer := rows })

/-- sync.rs `transfer_set_local_state`: `UPDATE sync_transfer SET
local_state = ?2 WHERE transfer_id = ?1`; returns `Some ()` iff the update
touched at least one row. No transition guard appears in the SQL. -/
def transfer_set_local_state (db : Db) (tid : String) (s : TransferState) :
    Option Unit × Db :=
  let count := (db.sync_transfer.filter (fun st => st.transfer_id == tid)).length
  let rows := db.sync_transfer.map fun st =>
    if st.transfer_id == tid then { st with local_state := s } else st
  (if count > 0 then some () else none, { db with sync_transfer := rows })

/-- Selection predicate of `start_incoming_file`'s `INSERT ... SELECT`:
`FROM sync_incoming_files sif INNER JOIN sync_transfer st USING(sync_id)
INNER JOIN incoming_paths ip ON ip.id = sif.path_id WHERE st.transfer_id =
?1 AND ip.path_hash = ?2`. Note: no condition on `sif.local_state`. -/
def start_sel (db : Db) (tid fid : String) (sif : SyncFileRow) : Bool :=
  (db.sync_transfer.any fun st =>
    st.sync_id == sif.sync_id && st.transfer_id == tid) &&
  (db.incoming_paths.any fun ip =>
    ip.id == sif.path_id && ip.path_hash == fid)

/-- sync.rs `start_incoming_file`: inserts one InFlightRow per selected
`sync_incoming_files` row and returns `Some ()` iff at least one row was
inserted. -/
def start_incoming_file (db : Db) (tid fid base_dir : String) :
    Option Unit × Db :=
  let sel := db.sync_incoming_files.filter (start_sel db tid fid)
  let new_rows := sel.map fun sif =>
    InFlightRow.mk sif.sync_id sif.path_id base_dir
  (if sel.length > 0 then some () else none,
   { db with sync_incoming_files_inflight :=
       db.sync_incoming_files_inflight ++ new_rows })

/-- sync.rs `stop_incoming_file`: deletes the InFlightRows whose
`(sync_id, path_id)` matches the subquery over `sync_transfer`,
`transfers`, `incoming_paths` keyed by `(transfer_id, path_hash)`. -/
def stop_incoming_file (db : Db) (tid fid : String) : Option Unit × Db :=
  let hit := fun (r : InFlightRow) =>
    db.sync_transfer.any fun st =>
      st.sync_id == r.sync_id && st.transfer_id == tid &&
      (db.transfers.any fun t =>
        t.id == st.transfer_id &&
        (db.incoming_paths.any fun ip =>
          ip.id == r.path_id && ip.transfer_id == t.id && ip.path_hash == fid))
  let kept := db.sync_incoming_files_inflight.filter (fun r => !(hit r))
  let count :=
    db.sync_incoming_files_inflight.length - kept.length
  (if count > 0 then some () else none,
   { db with sync_incoming_files_inflight := kept })

/-- Result rows of `incoming_files_in_flight` (sync.rs `FileInFilght`):
the `path_id` column is what the query selects as the file identifier. -/
structure FileInFilght where
  base_dir : String
  file_id : Nat
  deriving DecidableEq, Repr

/-- sync.rs `incoming_files_in_flight`: `SELECT sifi.base_dir, sif.path_id
FROM sync_incoming_files sif INNER JOIN sync_incoming_files_inflight sifi
USING(sync_id, path_id) INNER JOIN sync_transfer st USING(sync_id) INNER
JOIN transfers t ON t.id = st.transfer_id WHERE st.transfer_id = ?1 AND
sif.local_state = Alive`. -/
def incoming_files_in_flight (db : Db) (tid : String) : List FileInFilght :=
  (db.sync_incoming_files.filterMap fun sif =>
    if sif.local_state == FileState.Alive &&
       (db.sync_transfer.any fun st =>
         st.sync_id == sif.sync_id && st.transfer_id == tid &&
         (db.transfers.any fun t => t.id == st.transfer_id)) then
      (db.sync_incoming_files_inflight.find? fun sifi =>
        sifi.sync_id == sif.sync_id && sifi.path_id == sif.path_id).map
        fun sifi => FileInFilght.mk sifi.base_dir sif.path_id
    else none)

/-- sync.rs `incoming_files_to_reject`: `SELECT sif.path_id FROM
sync_incoming_files sif INNER JOIN sync_transfer st USING(sync_id) WHERE
st.transfer_id = ?1 AND sif.local_state = Rejected AND NOT
sif.remote_state = sif.local_state`. The selected column is `path_id`
(the integer key of `incoming_paths`), with no join on the paths table. -/
def incoming_files_to_reject (db : Db) (tid : String) : List Nat :=
  (db.sync_incoming_files.filter fun sif =>
    (db.sync_transfer.any fun st =>
      st.sync_id == sif.sync_id && st.transfer_id == tid) &&
    sif.local_state == FileState.Rejected &&
    !(sif.remote_state == sif.local_state)).map (fun sif => sif.path_id)

/-- sync.rs `outgoing_files_to_reject`: same shape over
`sync_outgoing_files`; also selects `path_id` with no join on
`outgoing_paths`. -/
def outgoing_files_to_reject (db : Db) (tid : String) : List Nat :=
  (db.sync_outgoing_files.filter fun sof =>
    (db.sync_transfer.any fun st =>
      st.sync_id == sof.sync_id && st.transfer_id == tid) &&
    sof.local_state == FileState.Rejected &&
    !(sof.remote_state == sof.local_state)).map (fun sof => sof.path_id)

/-- Modelled from the spec: the spec (§4.1, scenario 4) states
`files_to_reject(uuid)` returns *file ids*, i.e. the stable path-hash
identifiers used on the wire, of incoming files with `local_state =
Rejected ∧ remote_state ≠ Rejected`. This is the reference the code's
query is compared against. -/
def spec_incoming_files_to_reject (db : Db) (tid : String) : List String :=
  (db.sync_incoming_files.filter fun sif =>
    (db.sync_transfer.any fun st =>
      st.sync_id == sif.sync_id && st.transfer_id == tid) &&
    sif.local_state == FileState.Rejected &&
    !(sif.remote_state == sif.local_state)).filterMap fun sif =>
    (db.incoming_paths.find? fun ip => ip.id == sif.path_id).map
      (fun ip => ip.path_hash)

/-- sync.rs `transfer_clear` (`DELETE FROM sync_transfer WHERE transfer_id
= ?1`) as wrapped by the storage layer's `trasnfer_sync_clear`, together
with the cascading deletes of the dependent sync tables. Modelled from the
spec for the cascade only: the schema DDL (foreign keys) is not under
src/; spec §4.1 states `clear_transfer` is a cascading delete of the
TransferSyncRow, FileSyncRows and InFlightRows. -/
def trasnfer_sync_clear (db : Db) (tid : String) : Option Unit × Db :=
  let dead := db.sync_transfer.filter (fun st => st.transfer_id == tid)
  let dead_ids := dead.map (fun st => st.sync_id)
  let db2 :=
    { db with
      sync_transfer :=
        db.sync_transfer.filter (fun st => !(st.transfer_id == tid))
      sync_incoming_files :=
        db.sync_incoming_files.filter (fun f => !(dead_ids.contains f.sync_id))
      sync_outgoing_files :=
        db.sync_outgoing_files.filter (fun f => !(dead_ids.contains f.sync_id))
      sync_incoming_files_inflight :=
        db.sync_incoming_files_inflight.filter
          (fun f => !(dead_ids.contains f.sync_id)) }
  (if dead.length > 0 then some () else none, db2)

/-- Modelled from the spec: the storage wrapper
`update_transfer_sync_states(uuid, Some(Active), Some(Active))` called by
`init_client_handler` is not under src/; per spec §4.1 it sets both states
of the transfer's sync row in a single transaction. -/
def update_transfer_sync_states_active (db : Db) (tid : String) : Db :=
  { db with
    sync_transfer := db.sync_transfer.map fun st =>
      if st.transfer_id == tid then
        { st with local_state := TransferState.Active
                  remote_state := TransferState.Active }
      else st }

/-- The sync-state step of `init_client_handler` (ws/server/mod.rs:819-827)
in the branch where a sync row exists for the resumed transfer:
`if let (TransferState::New, _) = (tr_state.local_state,
tr_state.remote_state) { update_transfer_sync_states(id, Some(Active),
Some(Active)) }` — the pattern constrains only `local_state`. -/
def init_client_sync_update (db : Db) (tid : String) : Db :=
  match transfer_state db tid with
  | none => db
  | some tr_state =>
    match tr_state.local_state with
    | TransferState.New => update_transfer_sync_states_active db tid
    | _ => db

/-- The transfer manager's two registries as used by ws/server/mod.rs
(`state.transfer_manager.incoming` / `.outgoing`), modelled by the sets of
registered transfer UUIDs. -/
structure Managers where
  incoming : List String
  outgoing : List String
  deriving DecidableEq, Repr

/-- The graceful-close epilogue of `handle_client`
(ws/server/mod.rs:461-495), run when the session loop exits without error:
after draining the socket it executes
`state.transfer_manager.outgoing.lock().await.remove(&xfer.id())` — note:
the *outgoing* map, although `xfer` is an `IncomingTransfer` — and then
`state.storage.trasnfer_sync_clear(xfer.id())`. -/
def handle_client_graceful_close (m : Managers) (db : Db) (tid : String) :
    Managers × Db :=
  let m2 := { m with outgoing := m.outgoing.filter (fun x => !(x == tid)) }
  (m2, (trasnfer_sync_clear db tid).2)

/-- `drop_storage::error::Error` as matched by
`TransferManager::insert_transfer` (manager.rs:97-151). -/
inductive StorageErr
  | InternalError
  | DBError
  | RowNotFound
  deriving DecidableEq, Repr

/-- The `crate::Error` variants this development needs. -/
inductive Error
  | BadTransfer
  | BadTransferState
  | StorageError
  | BadPath
  | Canceled
  | MismatchedSize
  | UnexpectedData
  | BadChecksum
  | Io
  | FilenameTooLong
  deriving DecidableEq, Repr

/-- `TransferManager::insert_transfer` (manager.rs:97-151). The Client and
Server arms are identical up to which storage table they address, so the
storage lookup (`get_outgoing_transfer` / `get_incoming_transfer`) and
insert (`insert_outgoing_transfer` / `insert_incoming_transfer`) outcomes
are parameters; the in-memory registry is the list of registered UUIDs.
Returns the call's result and the registry afterwards. -/
def insert_transfer_mgr (transfers : List String) (id : String)
    (lookup_res : Except StorageErr Unit) (insert_res : Except StorageErr Unit) :
    Except Error Unit × List String :=
  match lookup_res with
  | Except.ok _ => (Except.error Error.BadTransfer, transfers)
  | Except.error StorageErr.InternalError =>
    (Except.error Error.StorageError, transfers)
  | Except.error StorageErr.DBError =>
    (Except.error Error.StorageError, transfers)
  | Except.error StorageErr.RowNotFound =>
    match insert_res with
    | Except.error _ => (Except.error Error.StorageError, transfers)
    | Except.ok _ =>
      if transfers.contains id then
        (Except.error Error.BadTransferState, transfers)
      else
        (Except.ok (), transfers ++ [id])

/-- `TransferManager::apply_dir_mapping` (manager.rs:161-206). Paths are
lists of components; `normalize` is `crate::utils::normalize_filename` and
`map_path_if_exists` is `crate::utils::map_path_if_exists` (both outside
src/, kept abstract as function parameters); `mappings` is the
`dir_mappings` cache, an association list from the probed path
(`dest_dir.join(probe)`) to the chosen directory name. Returns the mapped
relative path and the cache afterwards. -/
def apply_dir_mapping (normalize : String → String)
    (map_path_if_exists : List String → Except Error (List String))
    (mappings : List (List String × String))
    (dest : List String) (file_id : List String) :
    Except Error (List String) × List (List String × String) :=
  match file_id.map normalize with
  | [] => (Except.error Error.BadPath, mappings)
  | probe :: rest =>
    match rest with
    | [] => (Except.ok [probe], mappings)
    | next :: tail =>
      let key := dest ++ [probe]
      match List.lookup key mappings with
      | some name => (Except.ok (name :: next :: tail), mappings)
      | none =>
        match map_path_if_exists key with
        | Except.error e => (Except.error e, mappings)
        | Except.ok mapped =>
          match mapped.getLast? with
          | none => (Except.error Error.BadPath, mappings)
          | some name =>
            (Except.ok (name :: next :: tail), (key, name) :: mappings)

/-- Result of the `consume_file_chunks` closure inside
`FileXferTask::stream_file` (ws/server/mod.rs:530-577), extended with the
observable state the claims are about: bytes received, bytes written to
the temp file, and the values carried by the emitted
`FileDownloadProgress` events, in order. -/
structure ConsumeResult where
  res : Except Error Unit
  bytes : Nat
  tmp_len : Nat
  progress : List Nat
  deriving DecidableEq, Repr

/-- The `consume_file_chunks` loop of `stream_file`. A chunk is modelled
by its length; `stream.recv()` on the empty list is the closed-channel
case (`Canceled`). `validate` is the downloader's checksum validation
outcome (the `Downloader` impls live outside src/). `bytes` and `last_p`
start at `offset`, `acc` starts at `[offset]` because the closure first
announces the initial state with a progress event. -/
def consume_file_chunks (size thr : Nat) (validate : Except Error Unit) :
    List Nat → Nat → Nat → Nat → List Nat → ConsumeResult
  | chunks, bytes, last_p, tmp_len, acc =>
    if bytes < size then
      match chunks with
      | [] => ⟨Except.error Error.Canceled, bytes, tmp_len, acc⟩
      | c :: rest =>
        if c + bytes > size then
          ⟨Except.error Error.MismatchedSize, bytes, tmp_len, acc⟩
        else
          if last_p + thr ≤ bytes + c then
            consume_file_chunks size thr validate rest (bytes + c) (bytes + c)
              (tmp_len + c) (acc ++ [bytes + c])
          else
            consume_file_chunks size thr validate rest (bytes + c) last_p
              (tmp_len + c) acc
    else
      if bytes > size then
        ⟨Except.error Error.UnexpectedData, bytes, tmp_len, acc⟩
      else
        match validate with
        | Except.error e => ⟨e |> Except.error, bytes, tmp_len, acc⟩
        | Except.ok _ => ⟨Except.ok (), bytes, tmp_len, acc⟩

/-- Observable outcome of `FileXferTask::stream_file`
(ws/server/mod.rs:506-609): the returned result, whether the temp file
still exists at `tmp_loc` afterwards, its length, and the emitted
progress values. -/
structure StreamResult where
  res : Except Error (List String)
  tmp_exists : Bool
  tmp_len : Nat
  progress : List Nat
  deriving DecidableEq, Repr

/-- `FileXferTask::stream_file`. `open_res` is `downloader.open`'s
outcome; an open failure returns early with the temp file untouched. On
any error from `consume_file_chunks` the code removes the temp file
(`fs::remove_file`) and returns the error. `place` is
`place_file_into_dest`'s outcome (filesystem placement); a placement
failure propagates without removing the temp file, while success renames
the temp file onto the destination. `downloader.done` is emission-only
and not modelled. -/
def stream_file (size thr offset tmp_len0 : Nat) (chunks : List Nat)
    (open_res : Except Error Unit) (validate : Except Error Unit)
    (place : Except Error (List String)) : StreamResult :=
  match open_res with
  | Except.error e => ⟨Except.error e, true, tmp_len0, []⟩
  | Except.ok _ =>
    let c := consume_file_chunks size thr validate chunks offset offset
      tmp_len0 [offset]
    match c.res with
    | Except.error e => ⟨Except.error e, false, c.tmp_len, c.progress⟩
    | Except.ok _ =>
      match place with
      | Except.error e => ⟨Except.error e, true, c.tmp_len, c.progress⟩
      | Except.ok dst => ⟨Except.ok dst, false, c.tmp_len, c.progress⟩

/-- The events a file-download task emits on its event channel. -/
inductive DlEvent
  | started
  | progress (n : Nat)
  | success (dst : List String)
  | failed (e : Error)
  deriving DecidableEq, Repr

/-- `FileXferTask::run` (ws/server/mod.rs:643-742), as the list of events
the task emits. `init_res` is `downloader.init`'s outcome: an `(offset,
tmp_len)` pair on success (negotiated resume offset and current temp-file
length). A `Canceled` init error is silent; any other init error emits
`FileDownloadFailed` and stops. On a stream, `FileDownloadStarted` is
emitted, then the progress events, then exactly the terminal event the
result dictates: `FileDownloadSuccess` on `Ok`, nothing on `Canceled`,
`FileDownloadFailed` on any other error. `stream_terminal` is that
terminal-event selection. -/
def stream_terminal (r : Except Error (List String)) : List DlEvent :=
  match r with
  | Except.ok dst => [DlEvent.success dst]
  | Except.error Error.Canceled => []
  | Except.error e => [DlEvent.failed e]

def run_task (size thr : Nat) (init_res : Except Error (Nat × Nat))
    (chunks : List Nat) (open_res validate : Except Error Unit)
    (place : Except Error (List String)) : List DlEvent :=
  match init_res with
  | Except.error Error.Canceled => []
  | Except.error e => [DlEvent.failed e]
  | Except.ok (offset, tmp_len0) =>
    let s := stream_file size thr offset tmp_len0 chunks open_res validate place
    DlEvent.started :: (s.progress.map DlEvent.progress ++ stream_terminal s.res)

/-- The bytes-received values carried by the progress events, in emission
order. -/
def progress_values : List DlEvent → List Nat
  | [] => []
  | DlEvent.progress n :: rest => n :: progress_values rest
  | _ :: rest => progress_values rest

/-- Number of terminal events (`success` or `failed`) in an event list. -/
def terminal_count : List DlEvent → Nat
  | [] => 0
  | DlEvent.success _ :: rest => 1 + terminal_count rest
  | DlEvent.failed _ :: rest => 1 + terminal_count rest
  | _ :: rest => terminal_count rest

/-- Protocol versions accepted on `/drop/<version>`. -/
inductive Version
  | V1
  | V2
  | V4
  | V5
  deriving DecidableEq, Repr

/-- HTTP-level outcome of one request to `/drop/<version>`
(ws/server/mod.rs:127-230 including `handle_rejection`). -/
inductive ReqOutcome
  | not_found
  | too_many_reqs
  | missing_auth (fresh : Nat)
  | unauthorized
  | upgraded (v : Version)
  deriving DecidableEq, Repr

/-- Result of processing one request: the reply, the nonce store
afterwards, and — as an observation for the temporal claim — the nonce
value handed to `auth.authorize`, when it was called. -/
structure ReqResult where
  outcome : ReqOutcome
  nonces : List (String × Nat)
  auth_called_with : Option Nat
  deriving DecidableEq, Repr

/-- One request through the warp filter chain of `start`
(ws/server/mod.rs:139-230): version path-segment parse (failure routes to
not-found), per-peer-IP rate limit (failure replies 429), then the
authentication closure, which begins with `nonces.lock().await.remove(&peer)`
("Uncache the peer nonce first") before dispatching on the version: V1/V2
proceed unauthenticated; otherwise a missing authorization header is
rejected with `MissingAuth`, which `handle_rejection` turns into a 401
carrying a freshly generated nonce that is inserted into the store; with
a header, a missing cached nonce or a failed `auth.authorize(peer, header,
nonce)` is rejected with 401. The nonce store maps peer socket addresses
to nonces; `fresh` models `Nonce::generate()`. -/
def handle_request (authorize : String → String → Nat → Bool) (fresh : Nat)
    (nonces : List (String × Nat)) (ver : Option Version) (rate_ok : Bool)
    (peer : String) (auth_header : Option String) : ReqResult :=
  match ver with
  | none => ⟨ReqOutcome.not_found, nonces, none⟩
  | some v =>
    if !rate_ok then ⟨ReqOutcome.too_many_reqs, nonces, none⟩
    else
      let nonce := List.lookup peer nonces
      let store := nonces.filter (fun kv => !(kv.1 == peer))
      match v with
      | Version.V1 | Version.V2 => ⟨ReqOutcome.upgraded v, store, none⟩
      | _ =>
        match auth_header with
        | none =>
          ⟨ReqOutcome.missing_auth fresh, (peer, fresh) :: store, none⟩
        | some hdr =>
          match nonce with
          | none => ⟨ReqOutcome.unauthorized, store, none⟩
          | some n =>
            if authorize peer hdr n then
              ⟨ReqOutcome.upgraded v, store, some n⟩
            else
              ⟨ReqOutcome.unauthorized, store, some n⟩

/-! ## Concrete database states used by counterexamples and witnesses -/

/-- A transfer `t1` whose single incoming file (path id 7, hash `h1`) has
`local_state = Rejected`: the FileSyncRow is not Alive. -/
def c1_db : Db :=
  { transfers := [⟨"t1", false⟩]
    incoming_paths := [⟨7, "t1", "h1"⟩]
    outgoing_paths := []
    sync_transfer := [⟨1, "t1", TransferState.Active, TransferState.Active⟩]
    sync_incoming_files := [⟨1, 7, FileState.Rejected, FileState.Rejected⟩]
    sync_outgoing_files := []
    sync_incoming_files_inflight := [] }

/-- A transfer `t1` whose sync row has both states Canceled. -/
def c2_db : Db :=
  { transfers := [⟨"t1", false⟩]
    incoming_paths := []
    outgoing_paths := []
    sync_transfer := [⟨1, "t1", TransferState.Canceled, TransferState.Canceled⟩]
    sync_incoming_files := []
    sync_outgoing_files := []
    sync_incoming_files_inflight := [] }

/-- A transfer `t1` resuming with stored states (local = New,
remote = Canceled). -/
def c3_db : Db :=
  { transfers := [⟨"t1", false⟩]
    incoming_paths := []
    outgoing_paths := []
    sync_transfer := [⟨1, "t1", TransferState.New, TransferState.Canceled⟩]
    sync_incoming_files := []
    sync_outgoing_files := []
    sync_incoming_files_inflight := [] }

/-- Manager registries at the moment the receiver session for the
incoming transfer `t1` closes gracefully: `t1` is registered in the
incoming map. -/
def c4_mgr : Managers := ⟨["t1"], []⟩

/-- Sync store holding rows for the incoming transfer `t1`. -/
def c4_db : Db :=
  { transfers := [⟨"t1", false⟩]
    incoming_paths := [⟨7, "t1", "h1"⟩]
    outgoing_paths := []
    sync_transfer := [⟨1, "t1", TransferState.Active, TransferState.Active⟩]
    sync_incoming_files := [⟨1, 7, FileState.Alive, FileState.Alive⟩]
    sync_outgoing_files := []
    sync_incoming_files_inflight := [⟨1, 7, "base"⟩] }

/-- A transfer `t1` with one incoming file (path row id 7, path hash `h1`)
and one outgoing file (path row id 9, path hash `g1`), both locally
Rejected with the peer not yet aware. -/
def c5_db : Db :=
  { transfers := [⟨"t1", false⟩]
    incoming_paths := [⟨7, "t1", "h1"⟩]
    outgoing_paths := [⟨9, "t1", "g1"⟩]
    sync_transfer := [⟨1, "t1", TransferState.Active, TransferState.Active⟩]
    sync_incoming_files := [⟨1, 7, FileState.Rejected, FileState.Alive⟩]
    sync_outgoing_files := [⟨1, 9, FileState.Rejected, FileState.Alive⟩]
    sync_incoming_files_inflight := [] }

/-- The overall outcome of a file-download task: the value `run`'s
`result` match scrutinizes (an init error, or the `stream_file` result
with the destination path erased by `erase_dst`). -/
def erase_dst (r : Except Error (List String)) : Except Error Unit :=
  match r with
  | Except.ok _ => Except.ok ()
  | Except.error e => Except.error e

def task_outcome (size thr : Nat) (init_res : Except Error (Nat × Nat))
    (chunks : List Nat) (open_res validate : Except Error Unit)
    (place : Except Error (List String)) : Except Error Unit :=
  match init_res with
  | Except.error e => Except.error e
  | Except.ok (offset, tmp_len0) =>
    erase_dst (stream_file size thr offset tmp_len0 chunks open_res validate
      place).res

/-! ## Helper lemmas -/

/-- The `count > 0` idiom of sync.rs rendered on `Option`: the update
functions report success exactly when the condition holds. -/
theorem if_some_iff (c : Prop) [Decidable c] :
    ((if c then some () else none) = some ()) ↔ c := by
  by_cases h : c <;> simp [h]

/-- A filter has positive length exactly when some element satisfies the
predicate. -/
theorem filter_length_pos_iff {α : Type} (p : α → Bool) (l : List α) :
    0 < (l.filter p).length ↔ ∃ x ∈ l, p x = true := by
  rw [List.length_pos]
  constructor
  · intro h
    rcases List.exists_mem_of_ne_nil _ h with ⟨x, hx⟩
    exact ⟨x, List.mem_of_mem_filter hx, List.of_mem_filter hx⟩
  · rintro ⟨x, hm, hp⟩
    exact List.ne_nil_of_mem (List.mem_filter.mpr ⟨hm, hp⟩)

/-! ## C1 -/

/-- C1 counterexample: in `c1_db` the only FileSyncRow for `(t1, h1)` has
`local_state = Rejected`, yet `start_incoming_file` inserts an InFlightRow
and reports success — it is not a no-op when the row is not Alive, and the
resulting store holds an InFlightRow for a Rejected file. -/
theorem c1_counterexample :
    c1_db.sync_incoming_files
      = [⟨1, 7, FileState.Rejected, FileState.Rejected⟩] ∧
    (start_incoming_file c1_db "t1" "h1" "base").1 = some () ∧
    (start_incoming_file c1_db "t1" "h1" "base").2.sync_incoming_files_inflight
      = [⟨1, 7, "base"⟩] := by
  refine ⟨rfl, rfl, rfl⟩

/-- C1 amended: `start_incoming_file`'s selection predicate is independent
of the FileSyncRow's `local_state`; the call inserts (and returns
`some ()`) exactly when a FileSyncRow matching the transfer UUID and file
id exists, whatever its state — so an InFlightRow can exist for a
Rejected file. Only the enumeration `incoming_files_in_flight` restricts
itself to files whose FileSyncRow has `local_state = Alive`. -/
theorem c1_start_incoming_file_state_blind
    (db : Db) (tid fid base : String) :
    (∀ (sif : SyncFileRow) (s₁ s₂ : FileState),
      start_sel db tid fid { sif with local_state := s₁ }
        = start_sel db tid fid { sif with local_state := s₂ }) ∧
    ((start_incoming_file db tid fid base).1 = some () ↔
      ∃ sif ∈ db.sync_incoming_files, start_sel db tid fid sif = true) ∧
    (∀ f ∈ incoming_files_in_flight db tid,
      ∃ sif ∈ db.sync_incoming_files,
        sif.local_state = FileState.Alive ∧ sif.path_id = f.file_id) := by
  refine ⟨fun sif s₁ s₂ => rfl, ?_, ?_⟩
  · show ((if 0 < (db.sync_incoming_files.filter (start_sel db tid fid)).length
        then some () else none) = some ()) ↔ _
    rw [if_some_iff]
    exact filter_length_pos_iff _ _
  · intro f hf
    unfold incoming_files_in_flight at hf
    rcases List.mem_filterMap.mp hf with ⟨sif, hmem, hsome⟩
    by_cases hcond : (sif.local_state == FileState.Alive &&
        (db.sync_transfer.any fun st =>
          st.sync_id == sif.sync_id && st.transfer_id == tid &&
          (db.transfers.any fun t => t.id == st.transfer_id))) = true
    · rw [if_pos hcond] at hsome
      rcases Option.map_eq_some'.mp hsome with ⟨sifi, _, hfi⟩
      refine ⟨sif, hmem, ?_, ?_⟩
      · exact beq_iff_eq.mp ((Bool.and_eq_true _ _).mp hcond).1
      · rw [← hfi]
    · rw [if_neg hcond] at hsome
      exact absurd hsome (by simp)

/-- C1 witness: the amended theorem applied to `c1_db`, discharging the
existence hypothesis with the Rejected row itself. -/
theorem c1_witness :
    (start_incoming_file c1_db "t1" "h1" "base").1 = some () :=
  ((c1_start_incoming_file_state_blind c1_db "t1" "h1" "base").2.1).mpr
    ⟨⟨1, 7, FileState.Rejected, FileState.Rejected⟩, by decide, by decide⟩

/-! ## C2 -/

/-- C2 counterexample: with `t1` in state (Canceled, Canceled), requesting
the transition Canceled → New through `transfer_set_local_state` both
updates the row and returns `some ()`, where the claim requires the row
to stay unchanged and the result to be `None`. -/
theorem c2_counterexample :
    (transfer_state c2_db "t1").map (fun t => t.local_state)
      = some TransferState.Canceled ∧
    (transfer_set_local_state c2_db "t1" TransferState.New).1 = some () ∧
    (transfer_set_local_state c2_db "t1" TransferState.New).2.sync_transfer
      = [⟨1, "t1", TransferState.New, TransferState.Canceled⟩] := by
  refine ⟨rfl, rfl, rfl⟩

/-- C2 amended: `transfer_set_local_state` and `transfer_set_remote_state`
enforce no transition rule: they return `some ()` exactly when a sync row
for the UUID exists, and every matching row is overwritten with the
requested state whatever its previous state; `none` occurs only for an
unknown UUID. -/
theorem c2_set_transfer_state_unguarded
    (db : Db) (tid : String) (s : TransferState) :
    ((transfer_set_local_state db tid s).1 = some () ↔
      ∃ st ∈ db.sync_transfer, st.transfer_id = tid) ∧
    ((transfer_set_remote_state db tid s).1 = some () ↔
      ∃ st ∈ db.sync_transfer, st.transfer_id = tid) ∧
    (∀ st ∈ db.sync_transfer, st.transfer_id = tid →
      ({ st with local_state := s })
        ∈ (transfer_set_local_state db tid s).2.sync_transfer) ∧
    (∀ st ∈ db.sync_transfer, st.transfer_id = tid →
      ({ st with remote_state := s })
        ∈ (transfer_set_remote_state db tid s).2.sync_transfer) := by
  refine ⟨?_, ?_, ?_, ?_⟩
  · show ((if 0 < (db.sync_transfer.filter
        (fun st => st.transfer_id == tid)).length
        then some () else none) = some ()) ↔ _
    rw [if_some_iff, filter_length_pos_iff]
    simp only [beq_iff_eq]
  · show ((if 0 < (db.sync_transfer.filter
        (fun st => st.transfer_id == tid)).length
        then some () else none) = some ()) ↔ _
    rw [if_some_iff, filter_length_pos_iff]
    simp only [beq_iff_eq]
  · intro st hmem heq
    show _ ∈ db.sync_transfer.map (fun st =>
      if st.transfer_id == tid then { st with local_state := s } else st)
    exact List.mem_map.mpr ⟨st, hmem, by simp [heq]⟩
  · intro st hmem heq
    show _ ∈ db.sync_transfer.map (fun st =>
      if st.transfer_id == tid then { st with remote_state := s } else st)
    exact List.mem_map.mpr ⟨st, hmem, by simp [heq]⟩

/-- C2 witness: the amended theorem applied to `c2_db` for the transition
Canceled → New. -/
theorem c2_witness :
    (transfer_set_local_state c2_db "t1" TransferState.New).1 = some () :=
  ((c2_set_transfer_state_unguarded c2_db "t1" TransferState.New).1).mpr
    ⟨⟨1, "t1", TransferState.Canceled, TransferState.Canceled⟩, by decide, by decide⟩

/-! ## C3 -/

/-- C3 counterexample: at resume time the stored pair of `t1` is
(local = New, remote = Canceled), which differs from (New, New); yet the
`init_client_handler` sync step sets both states to Active instead of
leaving them unchanged. -/
theorem c3_counterexample :
    (transfer_state c3_db "t1").map
      (fun t => (t.local_state, t.remote_state))
      = some (TransferState.New, TransferState.Canceled) ∧
    decide ((TransferState.New, TransferState.Canceled)
      = (TransferState.New, TransferState.New)) = false ∧
    (init_client_sync_update c3_db "t1").sync_transfer
      = [⟨1, "t1", TransferState.Active, TransferState.Active⟩] := by
  refine ⟨rfl, rfl, rfl⟩

/-- C3 amended: the sync step of `init_client_handler` sets the pair to
(Active, Active) exactly when the stored `local_state` is New — whatever
the stored `remote_state` — and leaves the store untouched otherwise. -/
theorem c3_resume_activation_local_only
    (db : Db) (tid : String) (t : SyncTransfer)
    (h : transfer_state db tid = some t) :
    (t.local_state = TransferState.New →
      ∀ st ∈ (init_client_sync_update db tid).sync_transfer,
        st.transfer_id = tid →
        st.local_state = TransferState.Active ∧
        st.remote_state = TransferState.Active) ∧
    (t.local_state ≠ TransferState.New →
      init_client_sync_update db tid = db) := by
  constructor
  · intro hnew st hmem hid
    have hstep : init_client_sync_update db tid
        = update_transfer_sync_states_active db tid := by
      simp [init_client_sync_update, h, hnew]
    rw [hstep] at hmem
    unfold update_transfer_sync_states_active at hmem
    rcases List.mem_map.mp hmem with ⟨st₀, _, hmap⟩
    by_cases hc : (st₀.transfer_id == tid) = true
    · rw [if_pos hc] at hmap
      rw [← hmap]
      exact ⟨rfl, rfl⟩
    · rw [if_neg hc] at hmap
      rw [← hmap] at hid
      exact absurd (beq_iff_eq.mpr hid) hc
  · intro hne
    cases hl : t.local_state with
    | New => exact absurd hl hne
    | Active => simp [init_client_sync_update, h, hl]
    | Canceled => simp [init_client_sync_update, h, hl]

/-- C3 witness: the amended theorem applied to `c3_db`, whose stored pair
is (New, Canceled): the matching row ends up (Active, Active). -/
theorem c3_witness :
    (⟨1, "t1", TransferState.Active, TransferState.Active⟩ : SyncTransferRow)
      ∈ (init_client_sync_update c3_db "t1").sync_transfer ∧
    (TransferState.Active = TransferState.Active ∧
      TransferState.Active = TransferState.Active) :=
  ⟨by decide,
    (c3_resume_activation_local_only c3_db "t1"
      ⟨TransferState.Canceled, TransferState.New, false⟩ rfl).1 rfl
      ⟨1, "t1", TransferState.Active, TransferState.Active⟩ (by decide) rfl⟩

/-! ## C4 -/

/-- C4 evaluated at the failing input: after the graceful-close epilogue
of `handle_client` for incoming transfer `t1`, the sync store is indeed
purged, but the manager still knows the transfer — the code removes the
UUID from the *outgoing* registry (a no-op here), leaving the incoming
registry entry in place, contrary to the claim and to spec §4.4 step 6. -/
theorem c4_graceful_close_wrong_registry :
    (handle_client_graceful_close c4_mgr c4_db "t1").1.incoming = ["t1"] ∧
    (handle_client_graceful_close c4_mgr c4_db "t1").1.outgoing = [] ∧
    (handle_client_graceful_close c4_mgr c4_db "t1").2.sync_transfer = [] ∧
    (handle_client_graceful_close c4_mgr c4_db "t1").2.sync_incoming_files
      = [] ∧
    (handle_client_graceful_close c4_mgr c4_db "t1").2.sync_incoming_files_inflight
      = [] := by
  refine ⟨rfl, rfl, rfl, rfl, rfl⟩

/-! ## C5 -/

/-- C5 evaluated at the failing input: the reject queries select the
correct rows (local Rejected, remote not Rejected) but return the
internal `path_id` column — 7 and 9 — instead of the path-hash file ids
`h1` and `g1` that the wire and the callers
(`reject_transfer_files` looks ids up in `xfer.files()`) expect; no path
row carries the hash `"7"` or `"9"`, so the returned values identify no
file. -/
theorem c5_files_to_reject_returns_path_ids :
    incoming_files_to_reject c5_db "t1" = [7] ∧
    spec_incoming_files_to_reject c5_db "t1" = ["h1"] ∧
    outgoing_files_to_reject c5_db "t1" = [9] ∧
    (c5_db.incoming_paths.all fun ip => !(ip.path_hash == "7")) = true ∧
    (c5_db.outgoing_paths.all fun op => !(op.path_hash == "9")) = true := by
  refine ⟨rfl, rfl, rfl, rfl, rfl⟩

/-! ## C6 -/

/-- C6: in `stream_file`'s receive loop, a chunk whose length added to
`bytes_received` would exceed `file.size` is not written — the loop stops
with `MismatchedSize`, leaving bytes received, the temp-file length and
the emitted progress exactly as they were; and whenever the
`consume_file_chunks` phase ends in any error (`MismatchedSize`, `Canceled`
from end-of-stream, checksum-validation failure, ...), `stream_file`
removes the temporary file and propagates that same error. -/
theorem c6_stream_error_cleanup :
    (∀ (size thr c : Nat) (rest : List Nat) (bytes last_p tmp_len : Nat)
      (acc : List Nat) (v : Except Error Unit),
      bytes < size → c + bytes > size →
      consume_file_chunks size thr v (c :: rest) bytes last_p tmp_len acc
        = ⟨Except.error Error.MismatchedSize, bytes, tmp_len, acc⟩) ∧
    (∀ (size thr offset tmp_len0 : Nat) (chunks : List Nat)
      (v : Except Error Unit) (place : Except Error (List String)) (e : Error),
      (consume_file_chunks size thr v chunks offset offset tmp_len0
        [offset]).res = Except.error e →
      (stream_file size thr offset tmp_len0 chunks (Except.ok ()) v place).res
        = Except.error e ∧
      (stream_file size thr offset tmp_len0 chunks (Except.ok ()) v
        place).tmp_exists = false) := by
  constructor
  · intro size thr c rest bytes last_p tmp_len acc v h1 h2
    unfold consume_file_chunks
    simp [h1, h2]
  · intro size thr offset tmp0 chunks v place e hres
    have hsf : stream_file size thr offset tmp0 chunks (Except.ok ()) v place
        = ⟨Except.error e, false,
            (consume_file_chunks size thr v chunks offset offset tmp0
              [offset]).tmp_len,
            (consume_file_chunks size thr v chunks offset offset tmp0
              [offset]).progress⟩ := by
      simp [stream_file, hres]
    rw [hsf]
    exact ⟨rfl, rfl⟩

/-! ## C7 -/

theorem progress_values_append (a b : List DlEvent) :
    progress_values (a ++ b) = progress_values a ++ progress_values b := by
  induction a with
  | nil => rfl
  | cons x xs ih => cases x <;> simp [progress_values, ih]

theorem progress_values_map (l : List Nat) :
    progress_values (l.map DlEvent.progress) = l := by
  induction l with
  | nil => rfl
  | cons x xs ih => simp [progress_values, ih]

theorem terminal_count_append (a b : List DlEvent) :
    terminal_count (a ++ b) = terminal_count a + terminal_count b := by
  induction a with
  | nil => simp [terminal_count]
  | cons x xs ih => cases x <;> simp [terminal_count, ih] <;> omega

theorem terminal_count_map_progress (l : List Nat) :
    terminal_count (l.map DlEvent.progress) = 0 := by
  induction l with
  | nil => rfl
  | cons x xs ih => simp [terminal_count, ih]

/-- Loop invariant of `consume_file_chunks`: starting from a
progress-event list that is sorted and bounded by the current byte count,
which itself does not exceed the file size, every progress value ever
emitted stays at most `size` and the list stays sorted (each write only
extends the list with the strictly larger current byte count). -/
theorem consume_progress_invariant (size thr : Nat) (v : Except Error Unit) :
    ∀ (chunks : List Nat) (bytes last_p tmp_len : Nat) (acc : List Nat),
      bytes ≤ size →
      (∀ x ∈ acc, x ≤ bytes) →
      List.Chain' (· ≤ ·) acc →
      (∀ x ∈ (consume_file_chunks size thr v chunks bytes last_p tmp_len
        acc).progress, x ≤ size) ∧
      List.Chain' (· ≤ ·)
        (consume_file_chunks size thr v chunks bytes last_p tmp_len
          acc).progress := by
  intro chunks
  induction chunks with
  | nil =>
    intro bytes last_p tmp_len acc hb hacc hchain
    have hred : (consume_file_chunks size thr v [] bytes last_p tmp_len
        acc).progress = acc := by
      unfold consume_file_chunks
      split
      · rfl
      · split
        · rfl
        · cases v <;> rfl
    rw [hred]
    exact ⟨fun x hx => (hacc x hx).trans hb, hchain⟩
  | cons c rest ih =>
    intro bytes last_p tmp_len acc hb hacc hchain
    by_cases h1 : bytes < size
    · by_cases h2 : c + bytes > size
      · have hred : (consume_file_chunks size thr v (c :: rest) bytes last_p
            tmp_len acc).progress = acc := by
          unfold consume_file_chunks
          simp [h1, h2]
        rw [hred]
        exact ⟨fun x hx => (hacc x hx).trans hb, hchain⟩
      · have hbc : bytes + c ≤ size := by omega
        by_cases h3 : last_p + thr ≤ bytes + c
        · have hred : consume_file_chunks size thr v (c :: rest) bytes last_p
              tmp_len acc
              = consume_file_chunks size thr v rest (bytes + c) (bytes + c)
                (tmp_len + c) (acc ++ [bytes + c]) := by
            nth_rewrite 1 [consume_file_chunks.eq_def]
            simp [h1, h2, h3]
          rw [hred]
          apply ih
          · exact hbc
          · intro x hx
            rcases List.mem_append.mp hx with hx | hx
            · exact (hacc x hx).trans (Nat.le_add_right _ _)
            · rcases List.mem_singleton.mp hx with rfl
              exact le_rfl
          · rw [List.chain'_append]
            refine ⟨hchain, List.chain'_singleton _, ?_⟩
            intro x hx y hy
            have hx' : x ∈ acc := by
              rcases List.mem_getLast?_eq_getLast hx with ⟨hne, rfl⟩
              exact List.getLast_mem hne
            have hy' : y = bytes + c := by
              have := hy
              simp at this
              omega
            rw [hy']
            exact (hacc x hx').trans (Nat.le_add_right _ _)
        · have hred : consume_file_chunks size thr v (c :: rest) bytes last_p
              tmp_len acc
              = consume_file_chunks size thr v rest (bytes + c) last_p
                (tmp_len + c) acc := by
            nth_rewrite 1 [consume_file_chunks.eq_def]
            simp [h1, h2, h3]
          rw [hred]
          apply ih
          · exact hbc
          · exact fun x hx => (hacc x hx).trans (Nat.le_add_right _ _)
          · exact hchain
    · have hred : (consume_file_chunks size thr v (c :: rest) bytes last_p
          tmp_len acc).progress = acc := by
        unfold consume_file_chunks
        split
        · exact absurd (by assumption) h1
        · split
          · rfl
          · cases v <;> rfl
      rw [hred]
      exact ⟨fun x hx => (hacc x hx).trans hb, hchain⟩

theorem progress_values_started_cons (l : List DlEvent) :
    progress_values (DlEvent.started :: l) = progress_values l := rfl

theorem terminal_count_started_cons (l : List DlEvent) :
    terminal_count (DlEvent.started :: l) = terminal_count l := rfl

theorem stream_terminal_progress_values (r : Except Error (List String)) :
    progress_values (stream_terminal r) = [] := by
  rcases r with e | d
  · cases e <;> rfl
  · rfl

theorem stream_terminal_count (r : Except Error (List String)) :
    terminal_count (stream_terminal r)
      = if erase_dst r = Except.error Error.Canceled then 0 else 1 := by
  rcases r with e | d
  · cases e <;> simp [stream_terminal, erase_dst, terminal_count]
  · simp [stream_terminal, erase_dst, terminal_count]

/-- C7: for every file-download task run whose negotiated resume offset is
at most the file size, the bytes-received values of the emitted
`FileDownloadProgress` events are monotonically non-decreasing and never
exceed `file.size`, and the task emits exactly one terminal event
(`FileDownloadSuccess` or `FileDownloadFailed`) unless the outcome is
`Canceled`, in which case it emits none. -/
theorem c7_progress_monotone_terminal_unique
    (size thr : Nat) (init_res : Except Error (Nat × Nat)) (chunks : List Nat)
    (open_res validate : Except Error Unit)
    (place : Except Error (List String))
    (hoff : ∀ off t0, init_res = Except.ok (off, t0) → off ≤ size) :
    List.Chain' (· ≤ ·)
      (progress_values
        (run_task size thr init_res chunks open_res validate place)) ∧
    (∀ x ∈ progress_values
        (run_task size thr init_res chunks open_res validate place),
      x ≤ size) ∧
    terminal_count (run_task size thr init_res chunks open_res validate place)
      = (if task_outcome size thr init_res chunks open_res validate place
          = Except.error Error.Canceled then 0 else 1) := by
  rcases init_res with e | ⟨offset, t0⟩
  · cases e <;>
      simp [run_task, task_outcome, progress_values, terminal_count]
  · have hoffs : offset ≤ size := hoff offset t0 rfl
    have hsp : (∀ x ∈ (stream_file size thr offset t0 chunks open_res validate
        place).progress, x ≤ size) ∧
        List.Chain' (· ≤ ·) (stream_file size thr offset t0 chunks open_res
          validate place).progress := by
      rcases open_res with eo | u
      · simp [stream_file]
      · cases u
        have hinv := consume_progress_invariant size thr validate chunks
          offset offset t0 [offset] hoffs (by simp) (by simp)
        have heq : (stream_file size thr offset t0 chunks (Except.ok ())
            validate place).progress
            = (consume_file_chunks size thr validate chunks offset offset t0
              [offset]).progress := by
          rcases hres : (consume_file_chunks size thr validate chunks offset
            offset t0 [offset]).res with e | u2
          · simp [stream_file, hres]
          · rcases place with ep | dp <;> simp [stream_file, hres]
        rw [heq]
        exact ⟨hinv.1, hinv.2⟩
    have hrun : run_task size thr (Except.ok (offset, t0)) chunks open_res
        validate place
        = DlEvent.started ::
          ((stream_file size thr offset t0 chunks open_res validate
            place).progress.map DlEvent.progress ++
            stream_terminal (stream_file size thr offset t0 chunks open_res
              validate place).res) := rfl
    have hout : task_outcome size thr (Except.ok (offset, t0)) chunks open_res
        validate place
        = erase_dst (stream_file size thr offset t0 chunks open_res validate
          place).res := rfl
    have hpv : progress_values (run_task size thr (Except.ok (offset, t0))
        chunks open_res validate place)
        = (stream_file size thr offset t0 chunks open_res validate
          place).progress := by
      rw [hrun, progress_values_started_cons, progress_values_append,
        progress_values_map, stream_terminal_progress_values,
        List.append_nil]
    refine ⟨?_, ?_, ?_⟩
    · rw [hpv]; exact hsp.2
    · rw [hpv]; exact hsp.1
    · rw [hrun, terminal_count_started_cons, terminal_count_append,
        terminal_count_map_progress, stream_terminal_count, hout]
      simp

/-- C7 witness: a 100-byte file downloaded from offset 0 in two 50-byte
chunks emits exactly one terminal event. -/
theorem c7_witness :
    terminal_count (run_task 100 10 (Except.ok (0, 0)) [50, 50]
      (Except.ok ()) (Except.ok ()) (Except.ok ["dest"])) = 1 := by
  have h := (c7_progress_monotone_terminal_unique 100 10 (Except.ok (0, 0))
    [50, 50] (Except.ok ()) (Except.ok ()) (Except.ok ["dest"])
    (by intro off t0 hok; cases hok; decide)).2.2
  rw [h]
  decide

/-- C6 witness: a size-10 file receiving an 11-byte chunk at offset 0:
the chunk is rejected with `MismatchedSize` without being written, and
`stream_file` reports the temp file as removed. -/
theorem c6_witness :
    (consume_file_chunks 10 64 (Except.ok ()) [11] 0 0 5 [0]
      = ⟨Except.error Error.MismatchedSize, 0, 5, [0]⟩) ∧
    (stream_file 10 64 0 5 [11] (Except.ok ()) (Except.ok ())
      (Except.ok ["dest"])).tmp_exists = false :=
  ⟨c6_stream_error_cleanup.1 10 64 11 [] 0 0 5 [0] (Except.ok ())
    (by decide) (by decide),
   (c6_stream_error_cleanup.2 10 64 0 5 [11] (Except.ok ())
    (Except.ok ["dest"]) Error.MismatchedSize (by decide)).2⟩

/-! ## C8 -/

/-- C8: `TransferManager::insert_transfer` runs the storage lookup and the
storage insert before touching the in-memory registry: whenever the call
returns an error — lookup hit (`BadTransfer`), lookup failure or insert
failure (`StorageError`), or duplicate registration — the registry is
unchanged; and the registry changes only when the lookup reported
`RowNotFound`, the storage insert succeeded, and the call returned `Ok`,
in which case the UUID is appended. -/
theorem c8_insert_transfer_storage_first
    (transfers : List String) (id : String)
    (lookup_res insert_res : Except StorageErr Unit) :
    (∀ e, (insert_transfer_mgr transfers id lookup_res insert_res).1
        = Except.error e →
      (insert_transfer_mgr transfers id lookup_res insert_res).2
        = transfers) ∧
    ((insert_transfer_mgr transfers id lookup_res insert_res).2 ≠ transfers →
      lookup_res = Except.error StorageErr.RowNotFound ∧
      insert_res = Except.ok () ∧
      (insert_transfer_mgr transfers id lookup_res insert_res).1
        = Except.ok () ∧
      (insert_transfer_mgr transfers id lookup_res insert_res).2
        = transfers ++ [id]) := by
  rcases lookup_res with el | ul
  · cases el with
    | InternalError => exact ⟨fun e _ => rfl, fun h => absurd rfl h⟩
    | DBError => exact ⟨fun e _ => rfl, fun h => absurd rfl h⟩
    | RowNotFound =>
      rcases insert_res with ei | ui
      · exact ⟨fun e _ => rfl, fun h => absurd rfl h⟩
      · cases ui
        by_cases hc : transfers.contains id
        · have hred : insert_transfer_mgr transfers id
              (Except.error StorageErr.RowNotFound) (Except.ok ())
              = (Except.error Error.BadTransferState, transfers) := by
            show (if transfers.contains id then
                (Except.error Error.BadTransferState, transfers)
              else ((Except.ok () : Except Error Unit), transfers ++ [id])) = _
            rw [if_pos hc]
          rw [hred]
          exact ⟨fun e _ => rfl, fun h => absurd rfl h⟩
        · have hred : insert_transfer_mgr transfers id
              (Except.error StorageErr.RowNotFound) (Except.ok ())
              = (Except.ok (), transfers ++ [id]) := by
            show (if transfers.contains id then
                ((Except.error Error.BadTransferState : Except Error Unit),
                  transfers)
              else (Except.ok (), transfers ++ [id])) = _
            rw [if_neg hc]
          rw [hred]
          refine ⟨fun e he => ?_, fun _ => ⟨rfl, rfl, rfl, rfl⟩⟩
          exact absurd he (by simp)
  · cases ul
    exact ⟨fun e _ => rfl, fun h => absurd rfl h⟩

/-- C8 witness: the theorem applied to a failing storage lookup
(`DBError`): the call errors and leaves the registry `["a"]` unchanged. -/
theorem c8_witness :
    (insert_transfer_mgr ["a"] "b" (Except.error StorageErr.DBError)
      (Except.ok ())).2 = ["a"] :=
  (c8_insert_transfer_storage_first ["a"] "b"
    (Except.error StorageErr.DBError) (Except.ok ())).1
    Error.StorageError rfl

/-! ## C9 -/

/-- Looking a key up in an association list that starts with a binding for
that very key yields that binding. -/
theorem lookup_self_cons {α β : Type} [BEq α] [LawfulBEq α] (k : α) (v : β)
    (l : List (α × β)) : List.lookup k ((k, v) :: l) = some v := by
  simp [List.lookup]

/-- C9: once `apply_dir_mapping` has answered for a destination directory
and a first path component, every later call with the same destination and
first component — over any multi-component sub-path — returns a path with
the identical first component: the cache entry recorded for
`dest/probe` is reused. `normalize` and the filesystem probe `fso` are
arbitrary. -/
theorem c9_dir_mapping_first_component_stable
    (normalize : String → String)
    (fso : List String → Except Error (List String))
    (mappings : List (List String × String)) (dest : List String)
    (a b b' : String) (tail tail' : List String)
    (q q' : List String) (m1 m2 : List (List String × String))
    (h1 : apply_dir_mapping normalize fso mappings dest (a :: b :: tail)
        = (Except.ok q, m1))
    (h2 : apply_dir_mapping normalize fso m1 dest (a :: b' :: tail')
        = (Except.ok q', m2)) :
    q.head? = q'.head? := by
  rcases hl : List.lookup (dest ++ [normalize a]) mappings with _ | name
  · rcases hf : fso (dest ++ [normalize a]) with e | mapped
    · have hred : apply_dir_mapping normalize fso mappings dest (a :: b :: tail)
          = (Except.error e, mappings) := by
        simp [apply_dir_mapping, hl, hf]
      rw [hred] at h1
      exact absurd h1 (by simp)
    · rcases hg : mapped.getLast? with _ | name
      · have hred : apply_dir_mapping normalize fso mappings dest
            (a :: b :: tail) = (Except.error Error.BadPath, mappings) := by
          simp [apply_dir_mapping, hl, hf, hg]
        rw [hred] at h1
        exact absurd h1 (by simp)
      · have hred : apply_dir_mapping normalize fso mappings dest
            (a :: b :: tail)
            = (Except.ok (name :: normalize b :: List.map normalize tail),
               (dest ++ [normalize a], name) :: mappings) := by
          simp [apply_dir_mapping, hl, hf, hg]
        rw [hred] at h1
        rw [Prod.mk.injEq] at h1
        obtain ⟨hq, hm⟩ := h1
        injection hq with hq
        subst hq
        subst hm
        have hred2 : apply_dir_mapping normalize fso
            ((dest ++ [normalize a], name) :: mappings) dest (a :: b' :: tail')
            = (Except.ok (name :: normalize b' :: List.map normalize tail'),
               (dest ++ [normalize a], name) :: mappings) := by
          simp [apply_dir_mapping, lookup_self_cons]
        rw [hred2] at h2
        rw [Prod.mk.injEq] at h2
        obtain ⟨hq2, hm2⟩ := h2
        injection hq2 with hq2
        subst hq2
        rfl
  · have hred : apply_dir_mapping normalize fso mappings dest (a :: b :: tail)
        = (Except.ok (name :: normalize b :: List.map normalize tail),
           mappings) := by
      simp [apply_dir_mapping, hl]
    rw [hred] at h1
    rw [Prod.mk.injEq] at h1
    obtain ⟨hq, hm⟩ := h1
    injection hq with hq
    subst hq
    subst hm
    have hred2 : apply_dir_mapping normalize fso mappings dest
        (a :: b' :: tail')
        = (Except.ok (name :: normalize b' :: List.map normalize tail'),
           mappings) := by
      simp [apply_dir_mapping, hl]
    rw [hred2] at h2
    rw [Prod.mk.injEq] at h2
    obtain ⟨hq2, hm2⟩ := h2
    injection hq2 with hq2
    subst hq2
    rfl

/-- C9 witness: with an empty cache and an identity filesystem probe, the
two sub-paths `a/b` and `a/c` under destination `d` map to paths with the
same first component. -/
theorem c9_witness :
    apply_dir_mapping id (fun k => Except.ok k) [] ["d"] ["a", "b"]
      = (Except.ok ["a", "b"], [(["d", "a"], "a")]) ∧
    apply_dir_mapping id (fun k => Except.ok k) [(["d", "a"], "a")] ["d"]
      ["a", "c"]
      = (Except.ok ["a", "c"], [(["d", "a"], "a")]) ∧
    (["a", "b"] : List String).head? = (["a", "c"] : List String).head? :=
  ⟨rfl, rfl,
    c9_dir_mapping_first_component_stable id (fun k => Except.ok k) [] ["d"]
      "a" "b" "c" [] [] ["a", "b"] ["a", "c"]
      [(["d", "a"], "a")] [(["d", "a"], "a")] rfl rfl⟩

/-! ## C10 -/

/-- Removing every binding of `peer` leaves a store in which `peer` has no
binding. -/
theorem lookup_erase_none (peer : String) (l : List (String × Nat)) :
    List.lookup peer (l.filter (fun kv => !(kv.1 == peer))) = none := by
  induction l with
  | nil => rfl
  | cons kv rest ih =>
    rcases kv with ⟨k, val⟩
    by_cases h : k = peer
    · subst h
      simpa using ih
    · have hk : (k == peer) = false := by simp [h]
      have hpk : (peer == k) = false := by simp [Ne.symm h]
      simp [List.filter_cons, hk, List.lookup, hpk, ih]

/-- C10: on every request to `/drop/<version>` that reaches the
authentication closure (version parsed, rate limit passed), the peer's
cached nonce is removed from the store before the version dispatch and
authorization run: afterwards the peer either has no cached nonce or —
only in the missing-header case — a freshly generated one; and whenever
the authorizer is invoked, it is given exactly the nonce that was cached
before the request, which is no longer in the store afterwards, so the
same nonce can never be presented to the authorizer twice. This holds for
V1/V2 requests, requests without an authorization header, and failed
authorizations alike. -/
theorem c10_nonce_uncached_first
    (authorize : String → String → Nat → Bool) (fresh : Nat)
    (nonces : List (String × Nat)) (v : Version) (peer : String)
    (auth_header : Option String) (n : Nat)
    (hcache : List.lookup peer nonces = some n) :
    (List.lookup peer
        (handle_request authorize fresh nonces (some v) true peer
          auth_header).nonces = none ∨
      (auth_header = none ∧
        List.lookup peer
          (handle_request authorize fresh nonces (some v) true peer
            auth_header).nonces = some fresh)) ∧
    (∀ m,
      (handle_request authorize fresh nonces (some v) true peer
        auth_header).auth_called_with = some m →
      m = n ∧
      List.lookup peer
        (handle_request authorize fresh nonces (some v) true peer
          auth_header).nonces = none) := by
  cases v with
  | V1 =>
    have hred : handle_request authorize fresh nonces (some Version.V1) true
        peer auth_header
        = ⟨ReqOutcome.upgraded Version.V1,
            nonces.filter (fun kv => !(kv.1 == peer)), none⟩ := rfl
    rw [hred]
    exact ⟨Or.inl (lookup_erase_none peer nonces),
      fun m hm => absurd hm (by simp)⟩
  | V2 =>
    have hred : handle_request authorize fresh nonces (some Version.V2) true
        peer auth_header
        = ⟨ReqOutcome.upgraded Version.V2,
            nonces.filter (fun kv => !(kv.1 == peer)), none⟩ := rfl
    rw [hred]
    exact ⟨Or.inl (lookup_erase_none peer nonces),
      fun m hm => absurd hm (by simp)⟩
  | V4 =>
    rcases auth_header with _ | hdr
    · have hred : handle_request authorize fresh nonces (some Version.V4) true
          peer none
          = ⟨ReqOutcome.missing_auth fresh,
              (peer, fresh) :: nonces.filter (fun kv => !(kv.1 == peer)),
              none⟩ := rfl
      rw [hred]
      refine ⟨Or.inr ⟨rfl, ?_⟩, fun m hm => absurd hm (by simp)⟩
      exact lookup_self_cons _ _ _
    · have hred : handle_request authorize fresh nonces (some Version.V4) true
          peer (some hdr)
          = if authorize peer hdr n then
              ⟨ReqOutcome.upgraded Version.V4,
                nonces.filter (fun kv => !(kv.1 == peer)), some n⟩
            else
              ⟨ReqOutcome.unauthorized,
                nonces.filter (fun kv => !(kv.1 == peer)), some n⟩ := by
        simp [handle_request, hcache]
      by_cases hauth : authorize peer hdr n = true
      · rw [hred, if_pos hauth]
        exact ⟨Or.inl (lookup_erase_none peer nonces),
          fun m hm => ⟨(Option.some_inj.mp hm).symm,
            lookup_erase_none peer nonces⟩⟩
      · rw [hred, if_neg hauth]
        exact ⟨Or.inl (lookup_erase_none peer nonces),
          fun m hm => ⟨(Option.some_inj.mp hm).symm,
            lookup_erase_none peer nonces⟩⟩
  | V5 =>
    rcases auth_header with _ | hdr
    · have hred : handle_request authorize fresh nonces (some Version.V5) true
          peer none
          = ⟨ReqOutcome.missing_auth fresh,
              (peer, fresh) :: nonces.filter (fun kv => !(kv.1 == peer)),
              none⟩ := rfl
      rw [hred]
      refine ⟨Or.inr ⟨rfl, ?_⟩, fun m hm => absurd hm (by simp)⟩
      exact lookup_self_cons _ _ _
    · have hred : handle_request authorize fresh nonces (some Version.V5) true
          peer (some hdr)
          = if authorize peer hdr n then
              ⟨ReqOutcome.upgraded Version.V5,
                nonces.filter (fun kv => !(kv.1 == peer)), some n⟩
            else
              ⟨ReqOutcome.unauthorized,
                nonces.filter (fun kv => !(kv.1 == peer)), some n⟩ := by
        simp [handle_request, hcache]
      by_cases hauth : authorize peer hdr n = true
      · rw [hred, if_pos hauth]
        exact ⟨Or.inl (lookup_erase_none peer nonces),
          fun m hm => ⟨(Option.some_inj.mp hm).symm,
            lookup_erase_none peer nonces⟩⟩
      · rw [hred, if_neg hauth]
        exact ⟨Or.inl (lookup_erase_none peer nonces),
          fun m hm => ⟨(Option.some_inj.mp hm).symm,
            lookup_erase_none peer nonces⟩⟩

/-- C10 witness: a V4 request by a peer holding nonce 42, with a header
the authorizer rejects: the authorizer saw exactly nonce 42 and the nonce
is gone from the store afterwards. -/
theorem c10_witness :
    (42 : Nat) = 42 ∧
    List.lookup "1.2.3.4:80"
      (handle_request (fun _ _ _ => false) 7 [("1.2.3.4:80", 42)]
        (some Version.V4) true "1.2.3.4:80" (some "hdr")).nonces = none :=
  (c10_nonce_uncached_first (fun _ _ _ => false) 7 [("1.2.3.4:80", 42)]
    Version.V4 "1.2.3.4:80" (some "hdr") 42 (by decide)).2 42 (by decide)

end Libdrop
